import Mathlib

/-!
Verification of the coordination plane of the `distributed-database`
repository (backend services: cabinet-service, seer-service,
timestamp-service, metrics-collector, coordinator).

Modelling conventions:
* Python numbers (floats used for latencies, uptimes and the score
  weights 0.4/0.4/0.2) are embedded as exact rationals `ℚ`; the
  properties proved (orderings, positivity, exact formulas) are the
  intended real-number readings of the source.
* Python's `list.sort(key=k)` is a stable sort.  It is embedded as an
  insertion sort of the `enum`erated list ordered by the strict
  lexicographic order (key, original position); this is extensionally
  the unique stable sort.  `reverse=True` is the same sort with the
  key taken in the dual order.
* Network effects (HTTP calls, MySQL statements) are embedded as
  explicit environment records: each outbound call's result is a field
  of the environment, and a handler is a function from its environment
  and the coordinator state to an `Except HttpError` result, mirroring
  FastAPI's `HTTPException` control flow.
* Wall-clock latency fields of responses and the human-readable
  `message` strings are not modelled (real time); all other response
  fields are.
-/

namespace DistDB

/-! ## Stable sorting (Python `list.sort`)

`sortPos key` sorts an enumerated list `(index, value)` by
`key value`, ascending, ties broken by the original index — the
denotation of Python's stable `sort(key=...)`.  Descending sorts
(`reverse=True`) use the dual order on the key. -/

/-- Strict comparison used by the stable sort: earlier key, or equal
key and earlier original position. -/
def posLt {α K : Type} [LinearOrder K] (key : α → K) (x y : ℕ × α) : Bool :=
  decide (key x.2 < key y.2) || (decide (key x.2 = key y.2) && decide (x.1 < y.1))

/-- Non-strict version of `posLt`, used to state sortedness. -/
def posLe {α K : Type} [LinearOrder K] (key : α → K) (x y : ℕ × α) : Prop :=
  key x.2 < key y.2 ∨ (key x.2 = key y.2 ∧ x.1 ≤ y.1)

/-- Insert one element into a `posLt`-sorted list, before the first
strictly greater element (so after all elements with equal key that
came earlier in the input: stability). -/
def insertPos {α K : Type} [LinearOrder K] (key : α → K) (x : ℕ × α) :
    List (ℕ × α) → List (ℕ × α)
  | [] => [x]
  | y :: ys => if posLt key x y then x :: y :: ys else y :: insertPos key x ys

/-- Stable sort of an enumerated list by `key`, ascending. -/
def sortPos {α K : Type} [LinearOrder K] (key : α → K) (xs : List (ℕ × α)) :
    List (ℕ × α) :=
  xs.foldr (insertPos key) []

/-! ## Metrics snapshot records

The record published by the metrics collector for each MySQL instance
(`ReplicaMetrics` in `metrics-collector/main.py`), consumed by the
Cabinet and SEER services.  The collector tracks ALL instances,
including `instance-1`, the bootstrap primary. -/

structure ReplicaMetrics where
  replica_id : String
  latency_ms : ℚ
  replication_lag : ℚ
  uptime_seconds : ℚ
  crash_count : ℕ
  is_healthy : Bool
deriving DecidableEq, Repr

/-! ## Cabinet service (`cabinet-service/main.py`) -/

/-- Weight for a replica (`calculate_replica_weight`): zero when
unhealthy, else the inverse of latency plus lag plus one. -/
def calculate_replica_weight (latency_ms : ℚ) (replication_lag : ℚ)
    (is_healthy : Bool) : ℚ :=
  if !is_healthy then 0 else 1 / (latency_ms + replication_lag + 1)

def replicaWeight (r : ReplicaMetrics) : ℚ :=
  calculate_replica_weight r.latency_ms r.replication_lag r.is_healthy

/-- Majority size `math.ceil((total_replicas + 1) / 2)`, as a natural
number: `(n + 2) / 2 = ⌈(n + 1) / 2⌉`. -/
def quorumSize (total_replicas : ℕ) : ℕ := (total_replicas + 2) / 2

/-- The `/select-quorum` handler (`select_quorum`): weight every
replica of the snapshot, stable-sort by weight descending, take the
top majority.  Raises 503 when the snapshot is empty or when no member
of the selected quorum is healthy. -/
def select_quorum (replicas : List ReplicaMetrics) : Except String (List String) :=
  if replicas = [] then .error "No replicas available"
  else
    let sorted := sortPos (fun r => OrderDual.toDual (replicaWeight r)) replicas.enum
    let quorum_size := quorumSize replicas.length
    let top := sorted.take quorum_size
    let quorum := top.map (fun p => p.2.replica_id)
    if (top.filter (fun p => p.2.is_healthy)).length = 0 then
      .error "No healthy replicas available for quorum"
    else .ok quorum

/-! ## SEER service (`seer-service/main.py`) -/

structure ScoreParts where
  latency_score : ℚ
  stability_score : ℚ
  lag_score : ℚ
  total_score : ℚ
deriving DecidableEq, Repr

/-- Leadership score components (`calculate_replica_score`). -/
def calculate_replica_score (latency_ms : ℚ) (uptime_seconds : ℚ)
    (crash_count : ℕ) (replication_lag : ℚ) (is_healthy : Bool) : ScoreParts :=
  if !is_healthy then ⟨0, 0, 0, 0⟩
  else
    let latency_score := 1 / (latency_ms + 1)
    let stability_penalty : ℚ := crash_count * 100
    let stability_score := uptime_seconds / (uptime_seconds + stability_penalty + 1)
    let lag_score := 1 / (replication_lag + 1)
    ⟨latency_score, stability_score, lag_score,
      latency_score * 0.4 + stability_score * 0.4 + lag_score * 0.2⟩

def totalScore (r : ReplicaMetrics) : ℚ :=
  (calculate_replica_score r.latency_ms r.uptime_seconds r.crash_count
    r.replication_lag r.is_healthy).total_score

/-- The `/elect-leader` handler (`elect_leader`): drop excluded
replicas, score the rest, stable-sort by score descending, return the
head; 503 when the head's score is zero.  (The `[]` match arm is
unreachable: sorting a non-empty list is non-empty.) -/
def elect_leader (exclude_replicas : List String)
    (replicas : List ReplicaMetrics) : Except String ReplicaMetrics :=
  if replicas = [] then .error "No replicas available"
  else
    let eligible := replicas.filter (fun r => !exclude_replicas.contains r.replica_id)
    if eligible = [] then .error "No eligible replicas for election"
    else
      match sortPos (fun r => OrderDual.toDual (totalScore r)) eligible.enum with
      | [] => .error "No eligible replicas for election"
      | leader :: _ =>
          if totalScore leader.2 = 0 then
            .error "No healthy replicas available for leader election"
          else .ok leader.2

/-! ## Timestamp service (`timestamp-service/main.py`)

One shard holds an atomic counter initialized from `START_VALUE`; the
deployment runs two shards seeded 1 (odd lane) and 2 (even lane), both
with the hard-coded stride 2. -/

structure TsState where
  current_counter : ℕ
deriving DecidableEq, Repr

/-- The `/timestamp` handler (`get_timestamp`): return the counter and
advance it by the stride 2. -/
def get_timestamp (s : TsState) : ℕ × TsState :=
  (s.current_counter, ⟨s.current_counter + 2⟩)

/-- The `/reset` handler (`reset_counter`): set the counter back to
the shard's seed. -/
def reset_counter (START_VALUE : ℕ) (_s : TsState) : TsState := ⟨START_VALUE⟩

/-- The shard state after `n` calls to `get_timestamp`. -/
def tsIter (s : TsState) : ℕ → TsState
  | 0 => s
  | n + 1 => (get_timestamp (tsIter s n)).2

/-- The `n`-th timestamp issued by a shard seeded `START_VALUE`. -/
def issuedTimestamp (START_VALUE : ℕ) (n : ℕ) : ℕ :=
  (get_timestamp (tsIter ⟨START_VALUE⟩ n)).1

/-! ## Metrics collector (`metrics-collector/main.py`) -/

/-- Latency measurement (`measure_latency`): the probe round-trip in
milliseconds, or the sentinel 9999.0 when the connection or the probe
query fails (`probe = none`). -/
def measure_latency (probe : Option ℚ) : ℚ :=
  match probe with
  | some elapsed_ms => elapsed_ms
  | none => 9999

/-- The health threshold used by `collect_metrics`:
`is_healthy = latency < 5000`. -/
def UNHEALTHY_THRESHOLD_MS : ℚ := 5000

/-- The per-instance record kept by the collector's background loop. -/
structure MetricRecord where
  latency_ms : ℚ
  replication_lag : ℚ
  uptime_seconds : ℚ
  crash_count : ℕ
  start_time : ℚ
  is_healthy : Bool
deriving DecidableEq, Repr

/-- One sampling round of `collect_metrics` for one instance: measure
latency, derive health, track healthy/unhealthy edges (crash count and
uptime anchor), publish uptime.  `now` is the wall clock of the round,
`lag` the replication lag already derived from the master timestamp. -/
def collect_metrics_step (m : MetricRecord) (probe : Option ℚ) (lag : ℚ)
    (now : ℚ) : MetricRecord :=
  let latency := measure_latency probe
  let was_healthy := m.is_healthy
  let is_healthy : Bool := decide (latency < UNHEALTHY_THRESHOLD_MS)
  let crashed := was_healthy && !is_healthy
  let recovered := !was_healthy && is_healthy
  let start_time := if crashed || recovered then now else m.start_time
  { latency_ms := latency
    replication_lag := lag
    uptime_seconds := if is_healthy then now - start_time else 0
    crash_count := if crashed then m.crash_count + 1 else m.crash_count
    start_time := start_time
    is_healthy := is_healthy }

/-! ## Coordinator (`coordinator/main.py`) -/

inductive ConsistencyLevel
  | EVENTUAL
  | STRONG
deriving DecidableEq, Repr

structure Instance where
  id : String
  host : String
  container : String
deriving DecidableEq, Repr

/-- One consistency level's counters of `consistency_metrics` (the
wall-clock latency accumulators are not modelled). -/
structure LevelMetrics where
  read_count : ℕ
  write_count : ℕ
  failures : ℕ
deriving DecidableEq, Repr

/-- The coordinator's global mutable state: topology
(`current_master`, `current_replicas`) and the consistency counters
(`quorum_not_achieved` exists only for STRONG). -/
structure CoordState where
  current_master : Instance
  current_replicas : List Instance
  eventual : LevelMetrics
  strong : LevelMetrics
  strong_quorum_not_achieved : ℕ
deriving DecidableEq, Repr

/-- A raised `HTTPException`. -/
structure HttpError where
  status : ℕ
  detail : String
deriving DecidableEq, Repr

/-- The `/query` response model (`QueryResponse`); `data` is modelled
by its row count, `message` and `latency_ms` are not modelled. -/
structure QueryResponse where
  success : Bool
  timestamp : Option ℕ
  rows_affected : Option ℕ
  data_rows : Option ℕ
  executed_on : Option String
  consistency_level : Option String
  quorum_achieved : Option Bool
  replica_caught_up : Option Bool
deriving DecidableEq, Repr

/-- Result of `execute_query_on_host` on some host: success with the
row count, or the caught exception's text. -/
inductive ApplyOutcome
  | ok (rows : ℕ)
  | fail (error : String)
deriving DecidableEq, Repr

/-- Python dict built by comprehension over `xs` keyed by `key` (a
later entry overwrites an earlier one), then looked up. -/
def dictGet {α : Type} (key : α → String) (xs : List α) (k : String) : Option α :=
  xs.foldl (fun acc x => if key x = k then some x else acc) none

/-- The `replica_map` of `wait_for_quorum_catchup`:
`{r["id"]: r["host"] for r in current_replicas}[rid]`. -/
def replicaHost (replicas : List Instance) (rid : String) : Option String :=
  (dictGet Instance.id replicas rid).map Instance.host

structure CatchupResult where
  quorum_achieved : Bool
  caught_up_count : ℕ
  caught_up_replicas : List String
deriving DecidableEq, Repr

/-- `check_replica_timestamp_sync`: does the replica's
`last_applied_timestamp` reach the target?  `lastApplied` is the state
read over the network, keyed by host. -/
def check_replica_timestamp_sync (lastApplied : String → ℕ)
    (replica_host : String) (timestamp : ℕ) : Bool :=
  decide (timestamp ≤ lastApplied replica_host)

/-- One parallel poll of the target replicas: the ids that report
having caught up. -/
def pollRound (lastApplied : String → ℕ) (timestamp : ℕ)
    (target : List (String × String)) : List String :=
  (target.filter (fun p => check_replica_timestamp_sync lastApplied p.2 timestamp)).map
    Prod.fst

/-- The polling loop of `wait_for_quorum_catchup`: one poll per
in-deadline round (each `rounds` entry is that round's replica state);
success as soon as every target is caught up, otherwise one final poll
at state `final` after the deadline. -/
def catchupRounds (timestamp : ℕ) (target : List (String × String)) :
    List (String → ℕ) → (String → ℕ) → CatchupResult
  | [], final =>
      let caught := pollRound final timestamp target
      ⟨decide (target.length ≤ caught.length), caught.length, caught⟩
  | st :: rest, final =>
      let caught := pollRound st timestamp target
      if target.length ≤ caught.length then ⟨true, caught.length, caught⟩
      else catchupRounds timestamp target rest final

/-- `wait_for_quorum_catchup`: restrict the Cabinet quorum to the ids
present in the coordinator's replica map (ids not found are silently
dropped), then poll until every remaining target reaches `timestamp`
or the deadline passes.  An empty target list reports
`quorum_achieved = false` immediately. -/
def wait_for_quorum_catchup (timestamp : ℕ) (quorum_replicas : List String)
    (replicas : List Instance) (rounds : List (String → ℕ))
    (final : String → ℕ) : CatchupResult :=
  let target := quorum_replicas.filterMap
    (fun rid => (replicaHost replicas rid).map (fun h => (rid, h)))
  if target = [] then ⟨false, 0, []⟩
  else catchupRounds timestamp target rounds final

/-- The environment of one `handle_write_query` call: the results the
outside world would hand each outbound call. -/
structure WriteEnv where
  timestamp : Except String ℕ
  cabinet : Except String (List String)
  applyOn : String → ApplyOutcome
  election : Except String String
  promotion : Bool
  rounds : List (String → ℕ)
  final : String → ℕ

def failBump (consistency : ConsistencyLevel) (s : CoordState) : CoordState :=
  match consistency with
  | .EVENTUAL => { s with eventual := { s.eventual with failures := s.eventual.failures + 1 } }
  | .STRONG => { s with strong := { s.strong with failures := s.strong.failures + 1 } }

/-- The master-apply step of `handle_write_query` (lines 606-659),
including the failover branch: when the first apply fails — the code
tests only `result["success"]`, with no inspection of the error — it
elects via SEER, promotes, swaps the topology and retries exactly
once; a second failure raises 500. -/
def applyWithFailover (consistency : ConsistencyLevel) (env : WriteEnv)
    (s : CoordState) : Except HttpError ℕ × CoordState :=
  match env.applyOn s.current_master.host with
  | .ok rows => (.ok rows, s)
  | .fail _err =>
      match env.election with
      | .error e => (.error ⟨503, "Leader election failed: " ++ e⟩, failBump consistency s)
      | .ok new_leader_id =>
          match s.current_replicas.find? (fun r => r.id == new_leader_id) with
          | none =>
              (.error ⟨503, "Elected leader " ++ new_leader_id ++ " not found"⟩,
               failBump consistency s)
          | some elected =>
              if !env.promotion then
                (.error ⟨503, "Failover failed: could not promote replica"⟩,
                 failBump consistency s)
              else
                let old_master := s.current_master
                let s1 : CoordState :=
                  { s with
                    current_master := elected,
                    current_replicas :=
                      (s.current_replicas.filter (fun r => r.id != new_leader_id))
                        ++ [old_master] }
                match env.applyOn elected.host with
                | .ok rows => (.ok rows, s1)
                | .fail e =>
                    (.error ⟨500, "Query failed on new master: " ++ e⟩,
                     failBump consistency s1)

/-- `handle_write_query`: timestamp, Cabinet quorum (STRONG only),
master apply with failover, then the consistency-specific response.
`executed_on` reports the master host bound before the apply step,
exactly as the code binds `master_host` before failover can change
`current_master`. -/
def handle_write_query (consistency : ConsistencyLevel) (env : WriteEnv)
    (s : CoordState) : Except HttpError QueryResponse × CoordState :=
  match env.timestamp with
  | .error e => (.error ⟨503, "All timestamp services failed: " ++ e⟩, s)
  | .ok timestamp =>
    let cabinetStep : Except HttpError (Option (List String)) :=
      match consistency with
      | .EVENTUAL => .ok none
      | .STRONG =>
          match env.cabinet with
          | .ok q => .ok (some q)
          | .error e => .error ⟨503, "Failed to get Cabinet quorum: " ++ e⟩
    match cabinetStep with
    | .error e => (.error e, s)
    | .ok cabinet_quorum =>
      let master_host := s.current_master.host
      match applyWithFailover consistency env s with
      | (.error e, s1) => (.error e, s1)
      | (.ok rows, s1) =>
        match consistency with
        | .EVENTUAL =>
            (.ok { success := true, timestamp := some timestamp,
                   rows_affected := some rows, data_rows := none,
                   executed_on := some master_host,
                   consistency_level := some "EVENTUAL",
                   quorum_achieved := none, replica_caught_up := none },
             { s1 with eventual :=
                { s1.eventual with write_count := s1.eventual.write_count + 1 } })
        | .STRONG =>
            let quorum := cabinet_quorum.getD []
            let catchup := wait_for_quorum_catchup timestamp quorum
              s1.current_replicas env.rounds env.final
            if !catchup.quorum_achieved then
              (.ok { success := true, timestamp := some timestamp,
                     rows_affected := some rows, data_rows := none,
                     executed_on := some master_host,
                     consistency_level := some "STRONG",
                     quorum_achieved := some false, replica_caught_up := some false },
               { s1 with
                 strong := { s1.strong with write_count := s1.strong.write_count + 1 },
                 strong_quorum_not_achieved := s1.strong_quorum_not_achieved + 1 })
            else
              (.ok { success := true, timestamp := some timestamp,
                     rows_affected := some rows, data_rows := none,
                     executed_on := some master_host,
                     consistency_level := some "STRONG",
                     quorum_achieved := some true, replica_caught_up := some true },
               { s1 with
                 strong := { s1.strong with write_count := s1.strong.write_count + 1 } })

/-- The environment of one `handle_read_query` call. -/
structure ReadEnv where
  metrics : Option (List ReplicaMetrics)
  randomIndex : ℕ
  readResult : String → ApplyOutcome

/-- The healthy-replica list built by the EVENTUAL read path: current
replicas that the metrics snapshot marks healthy, paired with their
snapshot latency (`metrics_lookup` is a Python dict: a later snapshot
entry with the same id overwrites an earlier one). -/
def healthyByLatency (ms : List ReplicaMetrics) (replicas : List Instance) :
    List (Instance × ℚ) :=
  replicas.filterMap (fun r =>
    match dictGet ReplicaMetrics.replica_id ms r.id with
    | some m => if m.is_healthy then some (r, m.latency_ms) else none
    | none => none)

/-- Replica selection of the EVENTUAL read path: the healthy replica
of least snapshot latency (stable sort ascending, head), else — when
the metrics call failed or no replica qualified — a random current
replica (`random.choice`, modelled by `randomIndex mod length`), else
none (no replicas at all). -/
def bestEventualReplica (env : ReadEnv) (replicas : List Instance) :
    Option Instance :=
  let fromMetrics : Option Instance :=
    match env.metrics with
    | none => none
    | some ms =>
        ((sortPos (fun p : Instance × ℚ => p.2) (healthyByLatency ms replicas).enum).head?).map
          (fun p => p.2.1)
  match fromMetrics with
  | some b => some b
  | none =>
      if replicas.isEmpty then none
      else replicas.get? (env.randomIndex % replicas.length)

/-- `handle_read_query`: EVENTUAL routes to the selected replica with
a single fallback to the master when that read fails; STRONG reads the
master with no fallback.  A final failure raises 500. -/
def handle_read_query (consistency : ConsistencyLevel) (env : ReadEnv)
    (s : CoordState) : Except HttpError QueryResponse × CoordState :=
  match consistency with
  | .EVENTUAL =>
      let master_host := s.current_master.host
      let outcome : Except String (ℕ × String) :=
        match bestEventualReplica env s.current_replicas with
        | some b =>
            match env.readResult b.host with
            | .ok rows => .ok (rows, b.host)
            | .fail _ =>
                match env.readResult master_host with
                | .ok rows => .ok (rows, master_host)
                | .fail e => .error e
        | none =>
            match env.readResult master_host with
            | .ok rows => .ok (rows, master_host)
            | .fail e => .error e
      match outcome with
      | .error e =>
          (.error ⟨500, "Read failed: " ++ e⟩,
           { s with eventual := { s.eventual with failures := s.eventual.failures + 1 } })
      | .ok (rows, host) =>
          (.ok { success := true, timestamp := none, rows_affected := some rows,
                 data_rows := some rows, executed_on := some host,
                 consistency_level := some "EVENTUAL",
                 quorum_achieved := none, replica_caught_up := none },
           { s with eventual := { s.eventual with read_count := s.eventual.read_count + 1 } })
  | .STRONG =>
      let master_host := s.current_master.host
      match env.readResult master_host with
      | .fail e =>
          (.error ⟨500, "Read failed: " ++ e⟩,
           { s with strong := { s.strong with failures := s.strong.failures + 1 } })
      | .ok rows =>
          (.ok { success := true, timestamp := none, rows_affected := some rows,
                 data_rows := some rows, executed_on := some master_host,
                 consistency_level := some "STRONG",
                 quorum_achieved := none, replica_caught_up := none },
           { s with strong := { s.strong with read_count := s.strong.read_count + 1 } })

/-! ## Administrative reset (`/admin/clear-data`, allocator `/reset`) -/

/-- The observable state the reset claims quantify over: the two test
tables (rows abstracted), the durable timestamp metadata, the
consistency counters and the two allocator counters. -/
structure ObservableState where
  users : List String
  products : List String
  metadata_timestamp : ℕ
  table_timestamps : List (String × ℕ)
  eventual : LevelMetrics
  strong : LevelMetrics
  strong_quorum_not_achieved : ℕ
  ts_counter_1 : ℕ
  ts_counter_2 : ℕ
deriving DecidableEq, Repr

/-- The `/admin/clear-data` handler (`clear_test_data`): delete the
rows of `users` and `products`, set `_metadata.last_applied_timestamp`
to 0, zero the consistency counters, and reset both timestamp services
to their seeds.  It issues no statement against `_table_timestamps`. -/
def clear_test_data (s : ObservableState) : ObservableState :=
  { s with
    users := []
    products := []
    metadata_timestamp := 0
    eventual := ⟨0, 0, 0⟩
    strong := ⟨0, 0, 0⟩
    strong_quorum_not_achieved := 0
    ts_counter_1 := 1
    ts_counter_2 := 2 }

/-- `POST /reset` on every allocator: both counters back to their
seeds (shard 1 is seeded 1, shard 2 is seeded 2). -/
def reset_all_allocators (s : ObservableState) : ObservableState :=
  { s with ts_counter_1 := 1, ts_counter_2 := 2 }

/-- Modelled from the spec: the fresh-install observable state.  The
SQL schema/seed script that creates `_metadata`, `_table_timestamps`
and the test tables is not under `src/`; per the spec's data model a
fresh install has empty test tables, the `_metadata` row at the
initial timestamp 0, no `_table_timestamps` rows, zeroed consistency
counters, and each allocator counter at its seed. -/
def fresh_install_state : ObservableState :=
  ⟨[], [], 0, [], ⟨0, 0, 0⟩, ⟨0, 0, 0⟩, 0, 1, 2⟩

/-! ## Concrete inputs used by counterexamples and witnesses -/

/-- The bootstrap topology of `coordinator/main.py` (`current_master`
and `current_replicas` at startup), with zeroed counters. -/
def initial_master : Instance :=
  ⟨"instance-1", "mysql-instance-1", "mysql-instance-1"⟩

def initial_replicas : List Instance :=
  [⟨"instance-2", "mysql-instance-2", "mysql-instance-2"⟩,
   ⟨"instance-3", "mysql-instance-3", "mysql-instance-3"⟩,
   ⟨"instance-4", "mysql-instance-4", "mysql-instance-4"⟩]

def initial_state : CoordState :=
  ⟨initial_master, initial_replicas, ⟨0, 0, 0⟩, ⟨0, 0, 0⟩, 0⟩

/-- All-healthy snapshot in which the bootstrap primary `instance-1`
carries the best weight (lowest latency, no lag); the metrics
collector tracks it like any other instance. -/
def rC2a : ReplicaMetrics := ⟨"instance-1", 1, 0, 1000, 0, true⟩

def rC2b : ReplicaMetrics := ⟨"instance-2", 5, 0, 1000, 0, true⟩

def rC2c : ReplicaMetrics := ⟨"instance-3", 5, 0, 1000, 0, true⟩

def rC2d : ReplicaMetrics := ⟨"instance-4", 5, 0, 1000, 0, true⟩

def snapC2 : List ReplicaMetrics := [rC2a, rC2b, rC2c, rC2d]

/-- Snapshot for the SEER election example: two healthy candidates and
one unhealthy one. -/
def snapC4 : List ReplicaMetrics :=
  [⟨"instance-2", 10, 3, 500, 1, true⟩,
   ⟨"instance-3", 5, 0, 1000, 0, true⟩,
   ⟨"instance-4", 9999, 50, 0, 2, false⟩]

/-- Replica timestamps as read over the network: only `instance-2`'s
host has applied timestamp 7. -/
def stC1 : String → ℕ := fun h => if h = "mysql-instance-2" then 7 else 0

/-- Write environment in which the Cabinet quorum names the primary
`instance-1` (absent from the replica map) next to `instance-2`. -/
def envC1 : WriteEnv :=
  ⟨.ok 7, .ok ["instance-1", "instance-2"], fun _ => .ok 1, .error "unused", false, [], stC1⟩

def respC1 : QueryResponse :=
  ⟨true, some 7, some 1, none, some "mysql-instance-1", some "STRONG", some true, some true⟩

def stateC1 : CoordState :=
  { initial_state with strong := ⟨0, 1, 0⟩ }

/-- Write environment whose Cabinet replica never catches up (its
reported timestamp stays 0 while the write is stamped 7). -/
def envC3 : WriteEnv :=
  ⟨.ok 7, .ok ["instance-2"], fun _ => .ok 1, .error "unused", false, [], fun _ => 0⟩

/-- Write environment whose primary apply fails with a plain SQL
syntax error — not a connectivity or read-only symptom — while
election, promotion and the retry all succeed. -/
def envC6 : WriteEnv :=
  ⟨.ok 9, .ok [],
   fun h => if h = "mysql-instance-1"
     then .fail "1064 You have an error in your SQL syntax" else .ok 1,
   .ok "instance-2", true, [], fun _ => 0⟩

/-- Observable state with a stale `_table_timestamps` row. -/
def staleObservable : ObservableState :=
  ⟨["alice"], [], 42, [("users", 5)], ⟨3, 4, 0⟩, ⟨1, 2, 1⟩, 1, 9, 10⟩

/-- Read environment whose metrics snapshot marks `instance-3` the
lowest-latency healthy replica. -/
def msC8 : List ReplicaMetrics :=
  [⟨"instance-2", 8, 0, 1000, 0, true⟩,
   ⟨"instance-3", 2, 0, 1000, 0, true⟩,
   ⟨"instance-4", 3, 0, 1000, 0, false⟩]

def envC8 : ReadEnv :=
  ⟨some msC8, 0, fun _ => .ok 4⟩

theorem perm_insertPos {α K : Type} [LinearOrder K] (key : α → K) (x : ℕ × α)
    (l : List (ℕ × α)) : List.Perm (insertPos key x l) (x :: l) := by
  induction l with
  | nil => simp [insertPos]
  | cons y ys ih =>
      by_cases h : posLt key x y = true
      · simp [insertPos, h]
      · simp only [insertPos, h, if_neg, Bool.false_eq_true, not_false_iff]
        exact (List.Perm.cons y ih).trans (List.Perm.swap x y ys)

theorem perm_sortPos {α K : Type} [LinearOrder K] (key : α → K)
    (xs : List (ℕ × α)) : List.Perm (sortPos key xs) xs := by
  induction xs with
  | nil => simp [sortPos]
  | cons x xs ih =>
      have h1 : List.Perm (sortPos key (x :: xs)) (x :: sortPos key xs) :=
        perm_insertPos key x (sortPos key xs)
      exact h1.trans (List.Perm.cons x ih)

theorem posLe_of_not_posLt {α K : Type} [LinearOrder K] (key : α → K)
    {x y : ℕ × α} (h : ¬ posLt key x y = true) : posLe key y x := by
  simp only [posLt, Bool.or_eq_true, Bool.and_eq_true, decide_eq_true_eq,
    not_or, not_and] at h
  rcases lt_trichotomy (key y.2) (key x.2) with hlt | heq | hgt
  · exact Or.inl hlt
  · refine Or.inr ⟨heq, ?_⟩
    have := h.2 heq.symm
    omega
  · exact absurd hgt h.1

theorem posLe_of_posLt {α K : Type} [LinearOrder K] (key : α → K)
    {x y : ℕ × α} (h : posLt key x y = true) : posLe key x y := by
  simp only [posLt, Bool.or_eq_true, Bool.and_eq_true, decide_eq_true_eq] at h
  rcases h with h | ⟨h1, h2⟩
  · exact Or.inl h
  · exact Or.inr ⟨h1, Nat.le_of_lt h2⟩

theorem posLe_trans {α K : Type} [LinearOrder K] (key : α → K)
    {x y z : ℕ × α} (hxy : posLe key x y) (hyz : posLe key y z) :
    posLe key x z := by
  rcases hxy with h1 | ⟨h1, h1'⟩ <;> rcases hyz with h2 | ⟨h2, h2'⟩
  · exact Or.inl (h1.trans h2)
  · exact Or.inl (h2 ▸ h1)
  · exact Or.inl (h1 ▸ h2)
  · exact Or.inr ⟨h1.trans h2, h1'.trans h2'⟩

theorem mem_insertPos {α K : Type} [LinearOrder K] (key : α → K)
    {x z : ℕ × α} {l : List (ℕ × α)} (h : z ∈ insertPos key x l) :
    z = x ∨ z ∈ l :=
  List.mem_cons.mp ((perm_insertPos key x l).mem_iff.mp h)

theorem pairwise_insertPos {α K : Type} [LinearOrder K] (key : α → K)
    (x : ℕ × α) {l : List (ℕ × α)} (hl : l.Pairwise (posLe key)) :
    (insertPos key x l).Pairwise (posLe key) := by
  induction l with
  | nil => simp [insertPos]
  | cons y ys ih =>
      rcases List.pairwise_cons.mp hl with ⟨hy, hys⟩
      by_cases h : posLt key x y = true
      · simp only [insertPos, h, if_pos]
        refine List.pairwise_cons.mpr ⟨?_, hl⟩
        intro z hz
        rcases List.mem_cons.mp hz with rfl | hz
        · exact posLe_of_posLt key h
        · exact posLe_trans key (posLe_of_posLt key h) (hy z hz)
      · simp only [insertPos, h, if_neg, Bool.false_eq_true, not_false_iff]
        refine List.pairwise_cons.mpr ⟨?_, ih hys⟩
        intro z hz
        rcases mem_insertPos key hz with rfl | hz
        · exact posLe_of_not_posLt key h
        · exact hy z hz

theorem pairwise_sortPos {α K : Type} [LinearOrder K] (key : α → K)
    (xs : List (ℕ × α)) : (sortPos key xs).Pairwise (posLe key) := by
  induction xs with
  | nil => simp [sortPos]
  | cons x xs ih => exact pairwise_insertPos key x ih

theorem length_sortPos {α K : Type} [LinearOrder K] (key : α → K)
    (xs : List (ℕ × α)) : (sortPos key xs).length = xs.length :=
  (perm_sortPos key xs).length_eq

/-- The head of the stable sort is `posLe`-below every element of the
input list (it is the earliest element of least key). -/
theorem head_sortPos_le {α K : Type} [LinearOrder K] (key : α → K)
    {xs : List (ℕ × α)} {h : ℕ × α} {t : List (ℕ × α)}
    (hsort : sortPos key xs = h :: t) {y : ℕ × α} (hy : y ∈ xs) :
    y = h ∨ posLe key h y := by
  have hperm := perm_sortPos key xs
  rw [hsort] at hperm
  have hmem : y ∈ h :: t := hperm.symm.mem_iff.mp hy
  rcases List.mem_cons.mp hmem with hmem | hmem
  · exact Or.inl hmem
  · have hp := pairwise_sortPos key xs
    rw [hsort] at hp
    exact Or.inr ((List.pairwise_cons.mp hp).1 y hmem)

/-- Every element of the sorted prefix `take k` is `posLe`-below every
element at or beyond position `k` (used for quorum selection). -/
theorem take_sortPos_le {α K : Type} [LinearOrder K] (key : α → K)
    {xs : List (ℕ × α)} {i j : ℕ} {x y : ℕ × α}
    (hij : i < j) (hx : (sortPos key xs).get? i = some x)
    (hy : (sortPos key xs).get? j = some y) : posLe key x y := by
  have hp := pairwise_sortPos key xs
  have := List.pairwise_iff_get.mp hp
  rcases List.get?_eq_some.mp hx with ⟨hi, rfl⟩
  rcases List.get?_eq_some.mp hy with ⟨hj, rfl⟩
  exact this ⟨i, hi⟩ ⟨j, hj⟩ hij

/-! ## Timestamp allocator -/

theorem tsIter_counter (START_VALUE n : ℕ) :
    (tsIter ⟨START_VALUE⟩ n).current_counter = START_VALUE + 2 * n := by
  induction n with
  | zero => rfl
  | succ n ih =>
      simp only [tsIter, get_timestamp, ih]
      omega

theorem issuedTimestamp_eq (START_VALUE n : ℕ) :
    issuedTimestamp START_VALUE n = START_VALUE + 2 * n := by
  simp only [issuedTimestamp, get_timestamp, tsIter_counter]

/-- C5: successive `next()` calls return values strictly increasing by
exactly the stride 2 starting from the seed; a shard seeded 1 emits
only odd values and a shard seeded 2 only even values, and the value
sets of the two shards are disjoint; after a reset the counter is back
at the seed, so the next issued value equals the seed. -/
theorem C5_timestamp_shards :
    (∀ START_VALUE n, issuedTimestamp START_VALUE n = START_VALUE + 2 * n) ∧
    (∀ START_VALUE n,
      issuedTimestamp START_VALUE (n + 1) = issuedTimestamp START_VALUE n + 2) ∧
    (∀ n, Odd (issuedTimestamp 1 n)) ∧
    (∀ n, Even (issuedTimestamp 2 n)) ∧
    (∀ m n, issuedTimestamp 1 m ≠ issuedTimestamp 2 n) ∧
    (∀ START_VALUE s, (get_timestamp (reset_counter START_VALUE s)).1 = START_VALUE) := by
  refine ⟨issuedTimestamp_eq, ?_, ?_, ?_, ?_, ?_⟩
  · intro sv n
    rw [issuedTimestamp_eq, issuedTimestamp_eq]
    omega
  · intro n
    rw [issuedTimestamp_eq]
    exact ⟨n, by omega⟩
  · intro n
    rw [issuedTimestamp_eq]
    exact ⟨1 + n, by omega⟩
  · intro m n
    rw [issuedTimestamp_eq, issuedTimestamp_eq]
    omega
  · intro sv s
    rfl

/-! ## Metrics collector -/

/-- C10: an instance whose probe connection or probe query fails is
assigned the sentinel latency 9999.0 ms, which exceeds the 5000 ms
health threshold, so the instance is marked unhealthy for the round
and its published uptime is exactly 0. -/
theorem C10_failed_probe_unhealthy :
    (∀ m lag now,
      (collect_metrics_step m none lag now).latency_ms = 9999 ∧
      (collect_metrics_step m none lag now).is_healthy = false ∧
      (collect_metrics_step m none lag now).uptime_seconds = 0) ∧
    measure_latency none = 9999 ∧
    UNHEALTHY_THRESHOLD_MS < 9999 := by
  refine ⟨?_, rfl, by norm_num [UNHEALTHY_THRESHOLD_MS]⟩
  intro m lag now
  have hh : decide (measure_latency none < UNHEALTHY_THRESHOLD_MS) = false := by
    simp only [measure_latency, UNHEALTHY_THRESHOLD_MS, decide_eq_false_iff_not, not_lt]
    norm_num
  refine ⟨rfl, ?_, ?_⟩
  · simp [collect_metrics_step, hh]
  · simp [collect_metrics_step, hh]

/-! ## Administrative reset -/

/-- C7 (amended): `POST /reset` on every allocator followed by
`/admin/clear-data` returns every observable component except
`_table_timestamps` to its fresh-install value — test tables empty,
the global `_metadata` timestamp at its initial value 0, consistency
counters zeroed, allocator counters back at their seeds — but the
`_table_timestamps` rows are left exactly as they were, not cleared. -/
theorem C7_reset_clear_amended :
    ∀ s : ObservableState,
      (clear_test_data (reset_all_allocators s)).users = fresh_install_state.users ∧
      (clear_test_data (reset_all_allocators s)).products = fresh_install_state.products ∧
      (clear_test_data (reset_all_allocators s)).metadata_timestamp
        = fresh_install_state.metadata_timestamp ∧
      (clear_test_data (reset_all_allocators s)).eventual = fresh_install_state.eventual ∧
      (clear_test_data (reset_all_allocators s)).strong = fresh_install_state.strong ∧
      (clear_test_data (reset_all_allocators s)).strong_quorum_not_achieved
        = fresh_install_state.strong_quorum_not_achieved ∧
      (clear_test_data (reset_all_allocators s)).ts_counter_1
        = fresh_install_state.ts_counter_1 ∧
      (clear_test_data (reset_all_allocators s)).ts_counter_2
        = fresh_install_state.ts_counter_2 ∧
      (clear_test_data (reset_all_allocators s)).table_timestamps = s.table_timestamps := by
  intro s
  exact ⟨rfl, rfl, rfl, rfl, rfl, rfl, rfl, rfl, rfl⟩

/-- C7 counterexample: from a state with a stale `_table_timestamps`
row, the reset sequence does not reproduce the fresh-install state —
the stale per-table row survives `/admin/clear-data`. -/
theorem C7_counterexample :
    (clear_test_data (reset_all_allocators staleObservable)).table_timestamps
      = [("users", 5)] ∧
    fresh_install_state.table_timestamps = [] ∧
    decide (clear_test_data (reset_all_allocators staleObservable)
      = fresh_install_state) = false := by
  exact ⟨rfl, rfl, by decide⟩

/-! ## Cabinet quorum selection -/

theorem posLe_dual_iff {α : Type} (w : α → ℚ) (x y : ℕ × α) :
    posLe (fun a => OrderDual.toDual (w a)) x y ↔
      (w y.2 < w x.2 ∨ (w x.2 = w y.2 ∧ x.1 ≤ y.1)) := by
  constructor
  · rintro (h | ⟨h1, h2⟩)
    · exact Or.inl h
    · exact Or.inr ⟨OrderDual.toDual_inj.mp h1, h2⟩
  · rintro (h | ⟨h1, h2⟩)
    · exact Or.inl h
    · exact Or.inr ⟨OrderDual.toDual_inj.mpr h1, h2⟩

theorem mem_of_mem_sortPos_enum {α K : Type} [LinearOrder K] (key : α → K)
    {xs : List α} {p : ℕ × α} (hp : p ∈ sortPos key xs.enum) : p.2 ∈ xs := by
  have h1 : p ∈ xs.enum := (perm_sortPos key xs.enum).mem_iff.mp hp
  exact List.get?_mem (List.mem_enum_iff_get?.mp h1)

theorem get?_of_mem_sortPos_enum {α K : Type} [LinearOrder K] (key : α → K)
    {xs : List α} {p : ℕ × α} (hp : p ∈ sortPos key xs.enum) :
    xs.get? p.1 = some p.2 :=
  List.mem_enum_iff_get?.mp ((perm_sortPos key xs.enum).mem_iff.mp hp)

theorem sortPos_length_enum {α K : Type} [LinearOrder K] (key : α → K)
    (xs : List α) : (sortPos key xs.enum).length = xs.length := by
  rw [length_sortPos, List.enum_length]

theorem insertPos_cons_true {α K : Type} [LinearOrder K] (key : α → K)
    {x y : ℕ × α} (ys : List (ℕ × α)) (h : posLt key x y = true) :
    insertPos key x (y :: ys) = x :: y :: ys := by
  simp [insertPos, h]

theorem insertPos_cons_false {α K : Type} [LinearOrder K] (key : α → K)
    {x y : ℕ × α} (ys : List (ℕ × α)) (h : posLt key x y = false) :
    insertPos key x (y :: ys) = y :: insertPos key x ys := by
  simp [insertPos, h]

theorem posLt_dual_true {α : Type} (w : α → ℚ) {x y : ℕ × α}
    (h : w y.2 < w x.2 ∨ (w x.2 = w y.2 ∧ x.1 < y.1)) :
    posLt (fun a => OrderDual.toDual (w a)) x y = true := by
  simp only [posLt, Bool.or_eq_true, Bool.and_eq_true, decide_eq_true_eq,
    OrderDual.toDual_lt_toDual, OrderDual.toDual_inj]
  exact h

/-- Concrete evaluation: the stable descending sort of `snapC2` puts
the primary first (weight 1/2 against 1/6), followers in snapshot
order after it. -/
theorem sortPos_snapC2 :
    sortPos (fun r => OrderDual.toDual (replicaWeight r)) snapC2.enum =
      [(0, rC2a), (1, rC2b), (2, rC2c), (3, rC2d)] := by
  have wA : replicaWeight rC2a = 1 / 2 := by
    norm_num [replicaWeight, calculate_replica_weight, rC2a]
  have wB : replicaWeight rC2b = 1 / 6 := by
    norm_num [replicaWeight, calculate_replica_weight, rC2b]
  have wC : replicaWeight rC2c = 1 / 6 := by
    norm_num [replicaWeight, calculate_replica_weight, rC2c]
  have wD : replicaWeight rC2d = 1 / 6 := by
    norm_num [replicaWeight, calculate_replica_weight, rC2d]
  have s3 : insertPos (fun r => OrderDual.toDual (replicaWeight r)) (2, rC2c)
      [(3, rC2d)] = [(2, rC2c), (3, rC2d)] :=
    insertPos_cons_true _ _ (posLt_dual_true _ (Or.inr ⟨by rw [wC, wD], by norm_num⟩))
  have s2 : insertPos (fun r => OrderDual.toDual (replicaWeight r)) (1, rC2b)
      [(2, rC2c), (3, rC2d)] = [(1, rC2b), (2, rC2c), (3, rC2d)] :=
    insertPos_cons_true _ _ (posLt_dual_true _ (Or.inr ⟨by rw [wB, wC], by norm_num⟩))
  have s1 : insertPos (fun r => OrderDual.toDual (replicaWeight r)) (0, rC2a)
      [(1, rC2b), (2, rC2c), (3, rC2d)] = [(0, rC2a), (1, rC2b), (2, rC2c), (3, rC2d)] :=
    insertPos_cons_true _ _ (posLt_dual_true _ (Or.inl (by rw [wA, wB]; norm_num)))
  show insertPos _ (0, rC2a) (insertPos _ (1, rC2b) (insertPos _ (2, rC2c)
    (insertPos _ (3, rC2d) []))) = _
  rw [show insertPos (fun r => OrderDual.toDual (replicaWeight r)) (3, rC2d) [] =
    [(3, rC2d)] from rfl, s3, s2, s1]

/-- Concrete evaluation of the Cabinet on `snapC2`: the quorum is the
top 3 of 4, led by the primary. -/
theorem select_quorum_snapC2 :
    select_quorum snapC2 = .ok ["instance-1", "instance-2", "instance-3"] := by
  have hne : ¬ (snapC2 = []) := by simp [snapC2]
  simp only [select_quorum, if_neg hne, sortPos_snapC2]
  rfl

/-- C2 (amended): on a non-empty metrics snapshot, each candidate is
weighted 0 if unhealthy and 1/(latency_ms + replication_lag + 1)
otherwise; candidates are stable-sorted by weight descending (ties
broken by earlier snapshot position, i.e. stable instance id order);
and a returned quorum is exactly the ids of the top ⌈(N+1)/2⌉ sorted
candidates, where N is the snapshot's total instance count — a subset
of the monitored instances, which include the primary (not a subset of
the followers only). -/
theorem C2_cabinet_quorum (replicas : List ReplicaMetrics) (hne : replicas ≠ []) :
    (∀ l g, calculate_replica_weight l g false = 0) ∧
    (∀ l g, calculate_replica_weight l g true = 1 / (l + g + 1)) ∧
    (sortPos (fun r => OrderDual.toDual (replicaWeight r)) replicas.enum).Pairwise
      (fun x y => replicaWeight y.2 < replicaWeight x.2 ∨
        (replicaWeight x.2 = replicaWeight y.2 ∧ x.1 ≤ y.1)) ∧
    (∀ q, select_quorum replicas = .ok q →
      q = ((sortPos (fun r => OrderDual.toDual (replicaWeight r)) replicas.enum).take
            (quorumSize replicas.length)).map (fun p => p.2.replica_id) ∧
      q.length = quorumSize replicas.length ∧
      ∀ rid ∈ q, rid ∈ replicas.map ReplicaMetrics.replica_id) := by
  refine ⟨fun l g => rfl, fun l g => rfl, ?_, ?_⟩
  · exact (pairwise_sortPos _ _).imp (fun h => (posLe_dual_iff _ _ _).mp h)
  · intro q hq
    simp only [select_quorum, if_neg hne] at hq
    split at hq
    · exact absurd hq (by simp)
    · rename_i hhealthy
      have hq2 := hq
      injection hq2 with hq3
      subst hq3
      refine ⟨rfl, ?_, ?_⟩
      · have hlen : 0 < replicas.length := List.length_pos.mpr hne
        have hsz : quorumSize replicas.length ≤ replicas.length := by
          simp only [quorumSize]
          omega
        simp only [List.length_map, List.length_take, sortPos_length_enum]
        omega
      · intro rid hrid
        rcases List.mem_map.mp hrid with ⟨p, hp, rfl⟩
        have hp2 : p ∈ sortPos (fun r => OrderDual.toDual (replicaWeight r)) replicas.enum :=
          List.mem_of_mem_take hp
        exact List.mem_map.mpr ⟨p.2, mem_of_mem_sortPos_enum _ hp2, rfl⟩

/-- C2 witness: the amended theorem applied to the concrete four
instance snapshot `snapC2`. -/
theorem C2_cabinet_quorum_witness :
    (∀ l g, calculate_replica_weight l g false = 0) ∧
    (∀ l g, calculate_replica_weight l g true = 1 / (l + g + 1)) ∧
    (sortPos (fun r => OrderDual.toDual (replicaWeight r)) snapC2.enum).Pairwise
      (fun x y => replicaWeight y.2 < replicaWeight x.2 ∨
        (replicaWeight x.2 = replicaWeight y.2 ∧ x.1 ≤ y.1)) ∧
    (∀ q, select_quorum snapC2 = .ok q →
      q = ((sortPos (fun r => OrderDual.toDual (replicaWeight r)) snapC2.enum).take
            (quorumSize snapC2.length)).map (fun p => p.2.replica_id) ∧
      q.length = quorumSize snapC2.length ∧
      ∀ rid ∈ q, rid ∈ snapC2.map ReplicaMetrics.replica_id) :=
  C2_cabinet_quorum snapC2 (by simp [snapC2])

/-- C2 counterexample: on the snapshot `snapC2` the Cabinet returns a
quorum containing `instance-1`, the coordinator's primary — the
returned set is not a subset of the followers. -/
theorem C2_counterexample :
    select_quorum snapC2 = .ok ["instance-1", "instance-2", "instance-3"] ∧
    initial_state.current_master.id = "instance-1" ∧
    "instance-1" ∈ ["instance-1", "instance-2", "instance-3"] :=
  ⟨select_quorum_snapC2, rfl, by simp⟩

/-! ## SEER leader election -/

theorem totalScore_unhealthy (r : ReplicaMetrics) (h : r.is_healthy = false) :
    totalScore r = 0 := by
  simp [totalScore, calculate_replica_score, h]

theorem totalScore_healthy (r : ReplicaMetrics) (h : r.is_healthy = true) :
    totalScore r = 0.4 * (1 / (r.latency_ms + 1))
      + 0.4 * (r.uptime_seconds / (r.uptime_seconds + 100 * r.crash_count + 1))
      + 0.2 * (1 / (r.replication_lag + 1)) := by
  simp only [totalScore, calculate_replica_score, h, Bool.not_true, Bool.false_eq_true,
    if_false]
  ring

theorem totalScore_nonneg (r : ReplicaMetrics) (h1 : 0 ≤ r.latency_ms)
    (h2 : 0 ≤ r.uptime_seconds) (h3 : 0 ≤ r.replication_lag) :
    0 ≤ totalScore r := by
  by_cases hh : r.is_healthy = true
  · rw [totalScore_healthy r hh]
    have a1 : 0 < r.latency_ms + 1 := by linarith
    have a2 : 0 < r.replication_lag + 1 := by linarith
    have hc : (0 : ℚ) ≤ (r.crash_count : ℚ) := Nat.cast_nonneg _
    have a3 : (0 : ℚ) ≤ r.uptime_seconds + 100 * r.crash_count + 1 := by linarith
    have b1 : 0 < 1 / (r.latency_ms + 1) := by positivity
    have b2 : 0 ≤ r.uptime_seconds / (r.uptime_seconds + 100 * r.crash_count + 1) :=
      div_nonneg h2 a3
    have b3 : 0 < 1 / (r.replication_lag + 1) := by positivity
    linarith
  · rw [totalScore_unhealthy r (Bool.not_eq_true _ ▸ (by simpa using hh))]

theorem totalScore_pos (r : ReplicaMetrics) (h1 : 0 ≤ r.latency_ms)
    (h2 : 0 ≤ r.uptime_seconds) (h3 : 0 ≤ r.replication_lag)
    (hh : r.is_healthy = true) : 0 < totalScore r := by
  rw [totalScore_healthy r hh]
  have a1 : 0 < r.latency_ms + 1 := by linarith
  have a2 : 0 < r.replication_lag + 1 := by linarith
  have hc : (0 : ℚ) ≤ (r.crash_count : ℚ) := Nat.cast_nonneg _
  have a3 : (0 : ℚ) ≤ r.uptime_seconds + 100 * r.crash_count + 1 := by linarith
  have b1 : 0 < 1 / (r.latency_ms + 1) := by positivity
  have b2 : 0 ≤ r.uptime_seconds / (r.uptime_seconds + 100 * r.crash_count + 1) :=
    div_nonneg h2 a3
  have b3 : 0 < 1 / (r.replication_lag + 1) := by positivity
  linarith

/-- The head of a stable descending sort of the enumerated list is an
element of the list, carries the maximal key, and is the earliest such
element. -/
theorem head_sortPos_dual_max {α : Type} (w : α → ℚ) {xs : List α}
    {leader : ℕ × α} {t : List (ℕ × α)}
    (hs : sortPos (fun a => OrderDual.toDual (w a)) xs.enum = leader :: t) :
    xs.get? leader.1 = some leader.2 ∧
    (∀ j r, xs.get? j = some r → w r ≤ w leader.2) ∧
    (∀ j r, j < leader.1 → xs.get? j = some r → w r < w leader.2) := by
  have hhead : leader ∈ sortPos (fun a => OrderDual.toDual (w a)) xs.enum := by
    rw [hs]
    exact List.mem_cons_self _ _
  refine ⟨get?_of_mem_sortPos_enum _ hhead, ?_, ?_⟩
  · intro j r hj
    have hj2 : (j, r) ∈ xs.enum := List.mem_enum_iff_get?.mpr hj
    rcases head_sortPos_le _ hs hj2 with heq | hle
    · rw [show r = leader.2 from congrArg Prod.snd heq]
    · rcases (posLe_dual_iff w _ _).mp hle with hlt | ⟨heq, _⟩
      · exact le_of_lt hlt
      · exact le_of_eq heq.symm
  · intro j r hjlt hj
    have hj2 : (j, r) ∈ xs.enum := List.mem_enum_iff_get?.mpr hj
    rcases head_sortPos_le _ hs hj2 with heq | hle
    · exfalso
      have : j = leader.1 := congrArg Prod.fst heq
      omega
    · rcases (posLe_dual_iff w _ _).mp hle with hlt | ⟨_, hidx⟩
      · exact hlt
      · exfalso
        omega

theorem sortPos_enum_ne_nil {α K : Type} [LinearOrder K] (key : α → K)
    {xs : List α} (h : xs ≠ []) : sortPos key xs.enum ≠ [] := by
  intro hcontra
  have hlen := sortPos_length_enum key xs
  rw [hcontra] at hlen
  exact h (List.length_eq_zero.mp hlen.symm)

theorem filter_nil_exclude (replicas : List ReplicaMetrics) :
    replicas.filter (fun r => !([] : List String).contains r.replica_id) = replicas := by
  simp

/-- C4: each candidate's score equals
0.4·(1/(latency+1)) + 0.4·(uptime/(uptime + 100·crashes + 1)) + 0.2·(1/(lag+1)),
unhealthy candidates score 0; the highest-scoring candidate is
returned, ties broken by earlier snapshot position (stable id order);
`NoEligibleLeader` is signalled iff every candidate scores 0 (iff the
best score is 0, scores being non-negative); a returned leader is
healthy with score > 0. -/
theorem C4_seer_election (replicas : List ReplicaMetrics)
    (hnn : ∀ r ∈ replicas,
      0 ≤ r.latency_ms ∧ 0 ≤ r.uptime_seconds ∧ 0 ≤ r.replication_lag) :
    (∀ r ∈ replicas, r.is_healthy = true →
      totalScore r = 0.4 * (1 / (r.latency_ms + 1))
        + 0.4 * (r.uptime_seconds / (r.uptime_seconds + 100 * r.crash_count + 1))
        + 0.2 * (1 / (r.replication_lag + 1))) ∧
    (∀ r ∈ replicas, r.is_healthy = false → totalScore r = 0) ∧
    (∀ l, elect_leader [] replicas = .ok l →
      l ∈ replicas ∧ l.is_healthy = true ∧ 0 < totalScore l ∧
      (∀ r ∈ replicas, totalScore r ≤ totalScore l) ∧
      (∃ i, replicas.get? i = some l ∧
        ∀ j r, j < i → replicas.get? j = some r → totalScore r < totalScore l)) ∧
    (replicas ≠ [] →
      (elect_leader [] replicas
          = .error "No healthy replicas available for leader election"
        ↔ ∀ r ∈ replicas, totalScore r = 0)) := by
  have hunfold : ∀ _hne : replicas ≠ [],
      elect_leader [] replicas =
        match sortPos (fun r => OrderDual.toDual (totalScore r)) replicas.enum with
        | [] => .error "No eligible replicas for election"
        | leader :: _ =>
            if totalScore leader.2 = 0 then
              .error "No healthy replicas available for leader election"
            else .ok leader.2 := by
    intro hne
    simp only [elect_leader, filter_nil_exclude, if_neg hne]
  refine ⟨fun r _ hh => totalScore_healthy r hh,
    fun r _ hh => totalScore_unhealthy r hh, ?_, ?_⟩
  · intro l hok
    have hne : replicas ≠ [] := by
      rintro rfl
      simp [elect_leader] at hok
    rw [hunfold hne] at hok
    rcases hcons : sortPos (fun r => OrderDual.toDual (totalScore r)) replicas.enum with
      _ | ⟨leader, t⟩
    · rw [hcons] at hok
      exact absurd hok (by simp)
    · rw [hcons] at hok
      dsimp only at hok
      by_cases hz : totalScore leader.2 = 0
      · rw [if_pos hz] at hok
        exact absurd hok (by simp)
      · rw [if_neg hz] at hok
        have hleq : leader.2 = l := by
          injection hok
        subst hleq
        obtain ⟨hget, hmax, hstrict⟩ := head_sortPos_dual_max totalScore hcons
        have hlmem : leader.2 ∈ replicas := List.get?_mem hget
        obtain ⟨ha, hb, hc⟩ := hnn leader.2 hlmem
        have hpos : 0 < totalScore leader.2 :=
          lt_of_le_of_ne (totalScore_nonneg _ ha hb hc) (Ne.symm hz)
        have hhealthy : leader.2.is_healthy = true := by
          by_contra hcon
          have h0 := totalScore_unhealthy leader.2 (by simpa using hcon)
          rw [h0] at hpos
          exact absurd hpos (lt_irrefl 0)
        refine ⟨hlmem, hhealthy, hpos, ?_, leader.1, hget, fun j r hj hjget => hstrict j r hj hjget⟩
        intro r hr
        obtain ⟨j, hj⟩ := List.mem_iff_get?.mp hr
        exact hmax j r hj
  · intro hne
    obtain ⟨leader, t, hcons⟩ :
        ∃ leader t, sortPos (fun r => OrderDual.toDual (totalScore r)) replicas.enum
          = leader :: t := by
      rcases h : sortPos (fun r => OrderDual.toDual (totalScore r)) replicas.enum with
        _ | ⟨a, b⟩
      · exact absurd h (sortPos_enum_ne_nil _ hne)
      · exact ⟨a, b, rfl⟩
    obtain ⟨hget, hmax, _⟩ := head_sortPos_dual_max totalScore hcons
    rw [hunfold hne, hcons]
    dsimp only
    constructor
    · intro herr r hr
      by_cases hz : totalScore leader.2 = 0
      · obtain ⟨j, hj⟩ := List.mem_iff_get?.mp hr
        obtain ⟨ha, hb, hc⟩ := hnn r hr
        exact le_antisymm (hz ▸ hmax j r hj) (totalScore_nonneg _ ha hb hc)
      · rw [if_neg hz] at herr
        exact absurd herr (by simp)
    · intro hall
      have hz : totalScore leader.2 = 0 := hall leader.2 (List.get?_mem hget)
      rw [if_pos hz]

/-- C4 witness: the theorem applied to the concrete snapshot
`snapC4`. -/
theorem C4_seer_election_witness :
    (∀ r ∈ snapC4, r.is_healthy = true →
      totalScore r = 0.4 * (1 / (r.latency_ms + 1))
        + 0.4 * (r.uptime_seconds / (r.uptime_seconds + 100 * r.crash_count + 1))
        + 0.2 * (1 / (r.replication_lag + 1))) ∧
    (∀ r ∈ snapC4, r.is_healthy = false → totalScore r = 0) ∧
    (∀ l, elect_leader [] snapC4 = .ok l →
      l ∈ snapC4 ∧ l.is_healthy = true ∧ 0 < totalScore l ∧
      (∀ r ∈ snapC4, totalScore r ≤ totalScore l) ∧
      (∃ i, snapC4.get? i = some l ∧
        ∀ j r, j < i → snapC4.get? j = some r → totalScore r < totalScore l)) ∧
    (snapC4 ≠ [] →
      (elect_leader [] snapC4
          = .error "No healthy replicas available for leader election"
        ↔ ∀ r ∈ snapC4, totalScore r = 0)) :=
  C4_seer_election snapC4 (by
    intro r hr
    simp only [snapC4, List.mem_cons, List.not_mem_nil, or_false] at hr
    rcases hr with rfl | rfl | rfl <;> norm_num)

/-! ## STRONG catch-up wait -/

theorem pollRound_subset (lastApplied : String → ℕ) (timestamp : ℕ)
    (target : List (String × String)) :
    ∀ rid ∈ pollRound lastApplied timestamp target, rid ∈ target.map Prod.fst := by
  intro rid h
  simp only [pollRound, List.mem_map] at h ⊢
  obtain ⟨p, hp, rfl⟩ := h
  exact ⟨p, List.mem_of_mem_filter hp, rfl⟩

theorem pollRound_complete (lastApplied : String → ℕ) (timestamp : ℕ)
    (target : List (String × String))
    (hlen : target.length ≤ (pollRound lastApplied timestamp target).length) :
    ∀ p ∈ target, timestamp ≤ lastApplied p.2 := by
  have h1 : (pollRound lastApplied timestamp target).length =
      (target.filter
        (fun p => check_replica_timestamp_sync lastApplied p.2 timestamp)).length := by
    simp [pollRound]
  have h2 := List.length_filter_le
    (fun p : String × String => check_replica_timestamp_sync lastApplied p.2 timestamp) target
  have h3 : (target.filter
      (fun p => check_replica_timestamp_sync lastApplied p.2 timestamp)).length
      = target.length := by omega
  have h4 := List.filter_length_eq_length.mp h3
  intro p hp
  have h5 := h4 p hp
  simpa [check_replica_timestamp_sync] using h5

theorem catchupRounds_achieved (timestamp : ℕ) (target : List (String × String))
    (rounds : List (String → ℕ)) (final : String → ℕ)
    (hmono : ∀ st ∈ rounds, ∀ h, st h ≤ final h)
    (hach : (catchupRounds timestamp target rounds final).quorum_achieved = true) :
    ∀ p ∈ target, timestamp ≤ final p.2 := by
  induction rounds with
  | nil =>
      simp only [catchupRounds] at hach
      exact pollRound_complete final timestamp target (of_decide_eq_true hach)
  | cons st rest ih =>
      simp only [catchupRounds] at hach
      by_cases hc : target.length ≤ (pollRound st timestamp target).length
      · intro p hp
        have h1 := pollRound_complete st timestamp target hc p hp
        exact le_trans h1 (hmono st (List.mem_cons_self _ _) p.2)
      · rw [if_neg hc] at hach
        exact ih (fun s hs => hmono s (List.mem_cons_of_mem _ hs)) hach

theorem catchupRounds_caught_subset (timestamp : ℕ) (target : List (String × String))
    (rounds : List (String → ℕ)) (final : String → ℕ) :
    ∀ rid ∈ (catchupRounds timestamp target rounds final).caught_up_replicas,
      rid ∈ target.map Prod.fst := by
  induction rounds with
  | nil =>
      intro rid h
      exact pollRound_subset _ _ _ rid h
  | cons st rest ih =>
      intro rid h
      simp only [catchupRounds] at h
      by_cases hc : target.length ≤ (pollRound st timestamp target).length
      · rw [if_pos hc] at h
        exact pollRound_subset _ _ _ rid h
      · rw [if_neg hc] at h
        exact ih rid h

/-- The target pair list of `wait_for_quorum_catchup`. -/
theorem mem_catchup_target (quorum : List String) (replicas : List Instance)
    {rid host : String} (hq : rid ∈ quorum) (hh : replicaHost replicas rid = some host) :
    (rid, host) ∈ quorum.filterMap
      (fun rid => (replicaHost replicas rid).map (fun h => (rid, h))) :=
  List.mem_filterMap.mpr ⟨rid, hq, by rw [hh]; rfl⟩

/-- If the catch-up reports `quorum_achieved = true` and the polled
states only grow up to the final state, every quorum member present in
the replica map has reached the timestamp at the final state. -/
theorem wait_achieved_final (timestamp : ℕ) (quorum : List String)
    (replicas : List Instance) (rounds : List (String → ℕ)) (final : String → ℕ)
    (hmono : ∀ st ∈ rounds, ∀ h, st h ≤ final h)
    (hach : (wait_for_quorum_catchup timestamp quorum replicas rounds
      final).quorum_achieved = true) :
    ∀ rid ∈ quorum, ∀ host, replicaHost replicas rid = some host →
      timestamp ≤ final host := by
  intro rid hq host hh
  by_cases htgt : quorum.filterMap
      (fun rid => (replicaHost replicas rid).map (fun h => (rid, h))) = []
  · exfalso
    simp only [wait_for_quorum_catchup, htgt, if_pos] at hach
    exact Bool.false_ne_true hach
  · simp only [wait_for_quorum_catchup, if_neg htgt] at hach
    exact catchupRounds_achieved timestamp _ rounds final hmono hach
      (rid, host) (mem_catchup_target quorum replicas hq hh)

theorem wait_caught_has_host (timestamp : ℕ) (quorum : List String)
    (replicas : List Instance) (rounds : List (String → ℕ)) (final : String → ℕ) :
    ∀ rid ∈ (wait_for_quorum_catchup timestamp quorum replicas rounds
      final).caught_up_replicas,
      ∃ host, replicaHost replicas rid = some host := by
  intro rid h
  by_cases htgt : quorum.filterMap
      (fun rid => (replicaHost replicas rid).map (fun h => (rid, h))) = []
  · simp only [wait_for_quorum_catchup, htgt, if_pos] at h
    exact absurd h (List.not_mem_nil rid)
  · simp only [wait_for_quorum_catchup, if_neg htgt] at h
    have h2 := catchupRounds_caught_subset timestamp _ rounds final rid h
    rcases List.mem_map.mp h2 with ⟨p, hp, rfl⟩
    rcases List.mem_filterMap.mp hp with ⟨a, _, hfa⟩
    cases hrh : replicaHost replicas a with
    | none =>
        rw [hrh] at hfa
        exact absurd hfa (by simp)
    | some hst =>
        rw [hrh] at hfa
        simp only [Option.map_some', Option.some.injEq] at hfa
        rw [← hfa]
        exact ⟨hst, hrh⟩

theorem wait_all_dropped (timestamp : ℕ) (quorum : List String)
    (replicas : List Instance) (rounds : List (String → ℕ)) (final : String → ℕ)
    (hall : ∀ rid ∈ quorum, replicaHost replicas rid = none) :
    wait_for_quorum_catchup timestamp quorum replicas rounds final = ⟨false, 0, []⟩ := by
  have htgt : quorum.filterMap
      (fun rid => (replicaHost replicas rid).map (fun h => (rid, h))) = [] := by
    rw [List.filterMap_eq_nil]
    intro a ha
    rw [hall a ha]
    rfl
  simp only [wait_for_quorum_catchup, htgt, if_pos]

/-! ## Write-path bridges -/

theorem applyWithFailover_ok (consistency : ConsistencyLevel) (env : WriteEnv)
    (s : CoordState) (rows : ℕ)
    (ha : env.applyOn s.current_master.host = .ok rows) :
    applyWithFailover consistency env s = (.ok rows, s) := by
  simp only [applyWithFailover, ha]

theorem handle_write_strong_eq (env : WriteEnv) (s : CoordState) (t : ℕ)
    (Q : List String) (ht : env.timestamp = .ok t) (hc : env.cabinet = .ok Q) :
    handle_write_query .STRONG env s =
      match applyWithFailover .STRONG env s with
      | (.error e, s1) => (.error e, s1)
      | (.ok rows, s1) =>
          if !(wait_for_quorum_catchup t Q s1.current_replicas env.rounds
              env.final).quorum_achieved then
            (.ok ⟨true, some t, some rows, none, some s.current_master.host,
                  some "STRONG", some false, some false⟩,
             { s1 with
               strong := { s1.strong with write_count := s1.strong.write_count + 1 },
               strong_quorum_not_achieved := s1.strong_quorum_not_achieved + 1 })
          else
            (.ok ⟨true, some t, some rows, none, some s.current_master.host,
                  some "STRONG", some true, some true⟩,
             { s1 with
               strong := { s1.strong with write_count := s1.strong.write_count + 1 } }) := by
  simp only [handle_write_query, ht, hc, Option.getD_some]

theorem handle_write_eventual_eq (env : WriteEnv) (s : CoordState) (t : ℕ)
    (ht : env.timestamp = .ok t) :
    handle_write_query .EVENTUAL env s =
      match applyWithFailover .EVENTUAL env s with
      | (.error e, s1) => (.error e, s1)
      | (.ok rows, s1) =>
          (.ok ⟨true, some t, some rows, none, some s.current_master.host,
                some "EVENTUAL", none, none⟩,
           { s1 with
             eventual := { s1.eventual with write_count := s1.eventual.write_count + 1 } }) := by
  simp only [handle_write_query, ht]

/-- C9: during the STRONG catch-up wait, every Cabinet quorum member
id that is not present in the coordinator's replica map is silently
dropped from the set of replicas polled (every id reported caught up
has a host in the map); if no quorum member is a current replica, the
catch-up reports `quorum_achieved = false` with nothing polled, and
the STRONG write still returns `success = true` with
`quorum_achieved = false` rather than raising an error. -/
theorem C9_dropped_quorum_members (timestamp : ℕ) (quorum : List String)
    (replicas : List Instance) (rounds : List (String → ℕ)) (final : String → ℕ) :
    (∀ rid ∈ (wait_for_quorum_catchup timestamp quorum replicas rounds
        final).caught_up_replicas,
      ∃ host, replicaHost replicas rid = some host) ∧
    ((∀ rid ∈ quorum, replicaHost replicas rid = none) →
      wait_for_quorum_catchup timestamp quorum replicas rounds final = ⟨false, 0, []⟩) ∧
    (∀ (env : WriteEnv) (s : CoordState) (rows : ℕ),
      env.timestamp = .ok timestamp → env.cabinet = .ok quorum →
      env.applyOn s.current_master.host = .ok rows →
      (∀ rid ∈ quorum, replicaHost s.current_replicas rid = none) →
      ∃ resp s1, handle_write_query .STRONG env s = (.ok resp, s1) ∧
        resp.success = true ∧ resp.quorum_achieved = some false) := by
  refine ⟨wait_caught_has_host timestamp quorum replicas rounds final,
    wait_all_dropped timestamp quorum replicas rounds final, ?_⟩
  intro env s rows ht hc ha hdrop
  rw [handle_write_strong_eq env s timestamp quorum ht hc,
    applyWithFailover_ok .STRONG env s rows ha]
  dsimp only
  rw [wait_all_dropped timestamp quorum s.current_replicas env.rounds env.final hdrop]
  exact ⟨_, _, rfl, rfl, rfl⟩

/-- C3: a STRONG write applied on the primary whose Cabinet quorum
does not catch up before the deadline still returns
`success = true` with `quorum_achieved = false`, and the STRONG
`quorum_not_achieved` counter is incremented by exactly 1 (the
topology and the failure counter are untouched). -/
theorem C3_strong_timeout_soft (env : WriteEnv) (s : CoordState) (t : ℕ)
    (Q : List String) (rows : ℕ)
    (ht : env.timestamp = .ok t) (hc : env.cabinet = .ok Q)
    (ha : env.applyOn s.current_master.host = .ok rows)
    (hto : (wait_for_quorum_catchup t Q s.current_replicas env.rounds
      env.final).quorum_achieved = false) :
    ∃ resp s1, handle_write_query .STRONG env s = (.ok resp, s1) ∧
      resp.success = true ∧ resp.quorum_achieved = some false ∧
      resp.replica_caught_up = some false ∧ resp.timestamp = some t ∧
      s1.strong_quorum_not_achieved = s.strong_quorum_not_achieved + 1 ∧
      s1.strong.write_count = s.strong.write_count + 1 ∧
      s1.strong.failures = s.strong.failures ∧
      s1.current_master = s.current_master ∧
      s1.current_replicas = s.current_replicas := by
  rw [handle_write_strong_eq env s t Q ht hc, applyWithFailover_ok .STRONG env s rows ha]
  dsimp only
  rw [hto]
  exact ⟨_, _, rfl, rfl, rfl, rfl, rfl, rfl, rfl, rfl, rfl, rfl⟩

/-- C3 witness: the theorem at the concrete environment `envC3`, whose
single Cabinet replica reports timestamp 0 against a write stamped 7. -/
theorem C3_strong_timeout_soft_witness :
    ∃ resp s1, handle_write_query .STRONG envC3 initial_state = (.ok resp, s1) ∧
      resp.success = true ∧ resp.quorum_achieved = some false ∧
      resp.replica_caught_up = some false ∧ resp.timestamp = some 7 ∧
      s1.strong_quorum_not_achieved = initial_state.strong_quorum_not_achieved + 1 ∧
      s1.strong.write_count = initial_state.strong.write_count + 1 ∧
      s1.strong.failures = initial_state.strong.failures ∧
      s1.current_master = initial_state.current_master ∧
      s1.current_replicas = initial_state.current_replicas :=
  C3_strong_timeout_soft envC3 initial_state 7 ["instance-2"] 1 rfl rfl rfl rfl

/-- C1 (amended): for every STRONG write that returns
`quorum_achieved = true` with timestamp t and Cabinet quorum Q, every
member of Q that is present in the coordinator's replica map reports
`last_applied_timestamp ≥ t` at the final polled state (the moment of
return), provided the polled states only grow toward the final state;
members of Q absent from the replica map are not covered (they are
dropped from the poll). -/
theorem C1_strong_quorum_visible (env : WriteEnv) (s : CoordState) (t : ℕ)
    (Q : List String) (resp : QueryResponse) (s1 : CoordState)
    (ht : env.timestamp = .ok t) (hc : env.cabinet = .ok Q)
    (hmono : ∀ st ∈ env.rounds, ∀ h, st h ≤ env.final h)
    (hok : handle_write_query .STRONG env s = (.ok resp, s1))
    (hq : resp.quorum_achieved = some true) :
    resp.timestamp = some t ∧
    ∀ rid ∈ Q, ∀ host, replicaHost s1.current_replicas rid = some host →
      t ≤ env.final host := by
  rw [handle_write_strong_eq env s t Q ht hc] at hok
  rcases happly : applyWithFailover .STRONG env s with ⟨res, s2⟩
  rw [happly] at hok
  cases res with
  | error e => exact absurd hok (by simp)
  | ok rows =>
      dsimp only at hok
      by_cases hach : (wait_for_quorum_catchup t Q s2.current_replicas env.rounds
          env.final).quorum_achieved = true
      · rw [hach] at hok
        simp only [Bool.not_true, Bool.false_eq_true, if_false] at hok
        have hresp := congrArg Prod.fst hok
        have hstate := congrArg Prod.snd hok
        simp only at hresp hstate
        injection hresp with hresp
        subst hresp
        subst hstate
        refine ⟨rfl, ?_⟩
        intro rid hrid host hhost
        exact wait_achieved_final t Q s2.current_replicas env.rounds env.final
          hmono hach rid hrid host hhost
      · rw [Bool.not_eq_true] at hach
        rw [hach] at hok
        simp only [Bool.not_false, if_true] at hok
        have hresp := congrArg Prod.fst hok
        simp only at hresp
        injection hresp with hresp
        subst hresp
        simp at hq

/-- C1 counterexample: a STRONG write whose Cabinet quorum names the
primary `instance-1` — absent from the replica map — returns
`quorum_achieved = true` with timestamp 7 while `instance-1`'s host
reports `last_applied_timestamp = 0 < 7`: not every member of Q has
caught up at the moment of return. -/
theorem C1_counterexample :
    handle_write_query .STRONG envC1 initial_state = (.ok respC1, stateC1) ∧
    respC1.quorum_achieved = some true ∧ respC1.timestamp = some 7 ∧
    envC1.cabinet = .ok ["instance-1", "instance-2"] ∧
    "instance-1" ∈ ["instance-1", "instance-2"] ∧
    initial_master.host = "mysql-instance-1" ∧
    envC1.final "mysql-instance-1" = 0 ∧ (0 : ℕ) < 7 := by
  refine ⟨rfl, rfl, rfl, rfl, by simp, rfl, rfl, by omega⟩

/-- C1 witness: the amended theorem applied to the concrete
environment `envC1`, specialised to the present member `instance-2`. -/
theorem C1_strong_quorum_visible_witness :
    respC1.timestamp = some 7 ∧ (7 : ℕ) ≤ envC1.final "mysql-instance-2" := by
  have h := C1_strong_quorum_visible envC1 initial_state 7 ["instance-1", "instance-2"]
    respC1 stateC1 rfl rfl (by intro st hst; exact absurd hst (List.not_mem_nil st))
    rfl rfl
  exact ⟨h.1, h.2 "instance-2" (by simp) "mysql-instance-2" rfl⟩

/-- C6 (amended): for every write whose application on the primary
fails — for any reason whatsoever, the code inspects only the success
flag, not the kind of error — the coordinator invokes failover (SEER
election, promotion, topology swap) and retries the statement exactly
once on the new primary; election, promotion or retry failures are
fatal and surfaced as 5xx errors (503, or 500 on the retry). -/
theorem C6_failover_on_any_failure (consistency : ConsistencyLevel)
    (env : WriteEnv) (s : CoordState) (e : String)
    (hfail : env.applyOn s.current_master.host = .fail e) :
    (∀ lid elected, env.election = .ok lid →
      s.current_replicas.find? (fun r => r.id == lid) = some elected →
      env.promotion = true →
      ((∀ rows, env.applyOn elected.host = .ok rows →
        applyWithFailover consistency env s =
          (.ok rows,
           { s with
             current_master := elected,
             current_replicas :=
               (s.current_replicas.filter (fun r => r.id != lid))
                 ++ [s.current_master] })) ∧
       (∀ e2, env.applyOn elected.host = .fail e2 →
        applyWithFailover consistency env s =
          (.error ⟨500, "Query failed on new master: " ++ e2⟩,
           failBump consistency
             { s with
               current_master := elected,
               current_replicas :=
                 (s.current_replicas.filter (fun r => r.id != lid))
                   ++ [s.current_master] })))) ∧
    (∀ e2, env.election = .error e2 →
      applyWithFailover consistency env s =
        (.error ⟨503, "Leader election failed: " ++ e2⟩, failBump consistency s)) ∧
    (∀ lid, env.election = .ok lid →
      s.current_replicas.find? (fun r => r.id == lid) = none →
      applyWithFailover consistency env s =
        (.error ⟨503, "Elected leader " ++ lid ++ " not found"⟩,
         failBump consistency s)) ∧
    (∀ lid elected, env.election = .ok lid →
      s.current_replicas.find? (fun r => r.id == lid) = some elected →
      env.promotion = false →
      applyWithFailover consistency env s =
        (.error ⟨503, "Failover failed: could not promote replica"⟩,
         failBump consistency s)) ∧
    (∀ t Q, env.timestamp = .ok t → env.cabinet = .ok Q →
      ∀ err s1, applyWithFailover .STRONG env s = (.error err, s1) →
        handle_write_query .STRONG env s = (.error err, s1)) ∧
    (∀ t, env.timestamp = .ok t →
      ∀ err s1, applyWithFailover .EVENTUAL env s = (.error err, s1) →
        handle_write_query .EVENTUAL env s = (.error err, s1)) := by
  refine ⟨?_, ?_, ?_, ?_, ?_, ?_⟩
  · intro lid elected hel hfind hprom
    constructor
    · intro rows hretry
      simp only [applyWithFailover, hfail, hel, hfind, hprom, hretry, Bool.not_true,
        Bool.false_eq_true, if_false]
    · intro e2 hretry
      simp only [applyWithFailover, hfail, hel, hfind, hprom, hretry, Bool.not_true,
        Bool.false_eq_true, if_false]
  · intro e2 hel
    simp only [applyWithFailover, hfail, hel]
  · intro lid hel hfind
    simp only [applyWithFailover, hfail, hel, hfind]
  · intro lid elected hel hfind hprom
    simp only [applyWithFailover, hfail, hel, hfind, hprom, Bool.not_false, if_true]
  · intro t Q ht hc err s1 happly
    rw [handle_write_strong_eq env s t Q ht hc, happly]
  · intro t ht err s1 happly
    rw [handle_write_eventual_eq env s t ht, happly]

/-- C6 counterexample: the primary apply fails with a plain SQL syntax
error — not a connection, reachability or read-only symptom — and the
coordinator nevertheless runs failover: the final topology has
`instance-2` as master and the write succeeds on it. -/
theorem C6_counterexample :
    envC6.applyOn initial_state.current_master.host
      = .fail "1064 You have an error in your SQL syntax" ∧
    (handle_write_query .EVENTUAL envC6 initial_state).2.current_master.id
      = "instance-2" ∧
    initial_state.current_master.id = "instance-1" ∧
    (∃ resp, (handle_write_query .EVENTUAL envC6 initial_state).1 = .ok resp ∧
      resp.success = true) := by
  exact ⟨rfl, rfl, rfl, ⟨_, rfl, rfl⟩⟩

/-- C6 witness: the amended theorem at the concrete environment
`envC6` (syntax-error failure, successful election of `instance-2`,
successful retry). -/
theorem C6_failover_on_any_failure_witness :
    applyWithFailover .EVENTUAL envC6 initial_state =
      (.ok 1,
       { initial_state with
         current_master := ⟨"instance-2", "mysql-instance-2", "mysql-instance-2"⟩,
         current_replicas :=
           (initial_state.current_replicas.filter (fun r => r.id != "instance-2"))
             ++ [initial_state.current_master] }) := by
  have h := C6_failover_on_any_failure .EVENTUAL envC6 initial_state
    "1064 You have an error in your SQL syntax" rfl
  exact (h.1 "instance-2" ⟨"instance-2", "mysql-instance-2", "mysql-instance-2"⟩
    rfl rfl rfl).1 1 rfl

/-! ## Read routing -/

theorem healthyByLatency_spec (ms : List ReplicaMetrics) (rs : List Instance) :
    ∀ p ∈ healthyByLatency ms rs,
      p.1 ∈ rs ∧ ∃ m, dictGet ReplicaMetrics.replica_id ms p.1.id = some m ∧
        m.is_healthy = true ∧ m.latency_ms = p.2 := by
  intro p hp
  rcases List.mem_filterMap.mp hp with ⟨r, hr, hfr⟩
  rcases hd : dictGet ReplicaMetrics.replica_id ms r.id with _ | m
  · rw [hd] at hfr
    exact absurd hfr (by simp)
  · rw [hd] at hfr
    by_cases hh : m.is_healthy = true
    · simp only [hh, if_pos] at hfr
      injection hfr with hfr
      rw [← hfr]
      exact ⟨hr, m, hd, hh, rfl⟩
    · simp only [hh] at hfr
      rw [if_neg] at hfr
      · exact absurd hfr (by simp)
      · simp [Bool.not_eq_true] at hh
        simp [hh]

/-- C8: EVENTUAL reads go to the healthy follower of least snapshot
latency, with a single fallback to the primary when that read fails
and a 500 when the fallback fails too; with the metrics snapshot
unavailable, a random current follower is chosen; STRONG reads execute
on the primary with no fallback. -/
theorem C8_read_routing (env : ReadEnv) (s : CoordState) :
    (∀ rows, env.readResult s.current_master.host = .ok rows →
      handle_read_query .STRONG env s =
        (.ok ⟨true, none, some rows, some rows, some s.current_master.host,
              some "STRONG", none, none⟩,
         { s with strong := { s.strong with read_count := s.strong.read_count + 1 } })) ∧
    (∀ e, env.readResult s.current_master.host = .fail e →
      handle_read_query .STRONG env s =
        (.error ⟨500, "Read failed: " ++ e⟩,
         { s with strong := { s.strong with failures := s.strong.failures + 1 } })) ∧
    (∀ ms, env.metrics = some ms → healthyByLatency ms s.current_replicas ≠ [] →
      ∃ b lat, (b, lat) ∈ healthyByLatency ms s.current_replicas ∧
        bestEventualReplica env s.current_replicas = some b ∧
        (∀ p ∈ healthyByLatency ms s.current_replicas, lat ≤ p.2) ∧
        (∀ rows, env.readResult b.host = .ok rows →
          handle_read_query .EVENTUAL env s =
            (.ok ⟨true, none, some rows, some rows, some b.host,
                  some "EVENTUAL", none, none⟩,
             { s with eventual :=
                { s.eventual with read_count := s.eventual.read_count + 1 } })) ∧
        (∀ e rows, env.readResult b.host = .fail e →
          env.readResult s.current_master.host = .ok rows →
          handle_read_query .EVENTUAL env s =
            (.ok ⟨true, none, some rows, some rows, some s.current_master.host,
                  some "EVENTUAL", none, none⟩,
             { s with eventual :=
                { s.eventual with read_count := s.eventual.read_count + 1 } })) ∧
        (∀ e e2, env.readResult b.host = .fail e →
          env.readResult s.current_master.host = .fail e2 →
          handle_read_query .EVENTUAL env s =
            (.error ⟨500, "Read failed: " ++ e2⟩,
             { s with eventual :=
                { s.eventual with failures := s.eventual.failures + 1 } }))) ∧
    (env.metrics = none → s.current_replicas ≠ [] →
      ∃ b, bestEventualReplica env s.current_replicas = some b ∧
        s.current_replicas.get? (env.randomIndex % s.current_replicas.length) = some b ∧
        b ∈ s.current_replicas) ∧
    (∀ ms p, p ∈ healthyByLatency ms s.current_replicas →
      p.1 ∈ s.current_replicas ∧
      ∃ m, dictGet ReplicaMetrics.replica_id ms p.1.id = some m ∧
        m.is_healthy = true ∧ m.latency_ms = p.2) := by
  refine ⟨?_, ?_, ?_, ?_, fun ms => healthyByLatency_spec ms s.current_replicas⟩
  · intro rows hr
    simp only [handle_read_query, hr]
  · intro e hr
    simp only [handle_read_query, hr]
  · intro ms hms hne
    rcases hcons : (sortPos (fun p : Instance × ℚ => p.2)
        (healthyByLatency ms s.current_replicas).enum) with _ | ⟨hd, tl⟩
    · exact absurd hcons (sortPos_enum_ne_nil _ hne)
    · have hhead : hd ∈ sortPos (fun p : Instance × ℚ => p.2)
          (healthyByLatency ms s.current_replicas).enum := by
        rw [hcons]
        exact List.mem_cons_self _ _
      have hmem : hd.2 ∈ healthyByLatency ms s.current_replicas :=
        mem_of_mem_sortPos_enum _ hhead
      have hbest : bestEventualReplica env s.current_replicas = some hd.2.1 := by
        simp only [bestEventualReplica, hms, hcons, List.head?, Option.map_some']
      refine ⟨hd.2.1, hd.2.2, by simpa using hmem, hbest, ?_, ?_, ?_, ?_⟩
      · intro p hp
        obtain ⟨j, hj⟩ := List.mem_iff_get?.mp hp
        have hj2 : (j, p) ∈ (healthyByLatency ms s.current_replicas).enum :=
          List.mem_enum_iff_get?.mpr hj
        rcases head_sortPos_le _ hcons hj2 with heq | hle
        · rw [show p = hd.2 from congrArg Prod.snd heq]
        · rcases hle with hlt | ⟨heq, _⟩
          · exact le_of_lt hlt
          · exact le_of_eq heq
      · intro rows hr
        simp only [handle_read_query, hbest, hr]
      · intro e rows hr1 hr2
        simp only [handle_read_query, hbest, hr1, hr2]
      · intro e e2 hr1 hr2
        simp only [handle_read_query, hbest, hr1, hr2]
  · intro hms hne
    have hlen : 0 < s.current_replicas.length := List.length_pos.mpr hne
    have hidx : env.randomIndex % s.current_replicas.length < s.current_replicas.length :=
      Nat.mod_lt _ hlen
    refine ⟨s.current_replicas.get ⟨env.randomIndex % s.current_replicas.length, hidx⟩,
      ?_, ?_, List.get_mem _ _ _⟩
    · simp only [bestEventualReplica, hms]
      rw [if_neg (by simpa using hne)]
      exact (List.get?_eq_get hidx)
    · exact List.get?_eq_get hidx

end DistDB
